import Mathlib

/-!
Shallow embedding of `src/kernel_exp_family/estimators/full/gaussian.py`.

Real numbers model Python floats.  Python `for` loops are modelled by `List.foldl`
over `List.finRange`; vectorized numpy reductions (`np.dot`, `np.sum`) are modelled
by `Finset` sums.  Numpy arrays of statically known shape are functions out of `Fin`.
The dynamically shaped arrays held by the estimator object are modelled by `NPMat`
(a rank-2 array: column count plus row list, so that the shape `(0, D)` of the
initial sample matrix is representable), `NPArrN` (an array of arbitrary rank:
shape plus flat data, used for query vectors whose rank is checked at run time),
`NPArr` (the `beta` coefficient array, which is rank 1 after construction and
rank 2 after a successful fit) and `NPVal` (a value that is either a scalar or a
rank-1 array, which is what the accumulation `acc = 0; acc += vector` produces
under numpy broadcasting).  Raised Python exceptions are modelled by `Except` /
an error component; a method that mutates `self` and may raise is modelled as a
function returning the post-call state together with an optional error, because
in Python the mutations performed before the raise persist.
-/

namespace KernelExpFamily

/-- Row index of flat index `i` in the row-major flattening of an `n × d` array. -/
def rowIdx {n d : ℕ} (i : Fin (n * d)) : Fin n :=
  ⟨i.val / d, by
    apply Nat.div_lt_of_lt_mul
    rw [Nat.mul_comm d n]
    exact i.isLt⟩

/-- Column index of flat index `i` in the row-major flattening of an `n × d` array. -/
def colIdx {n d : ℕ} (i : Fin (n * d)) : Fin d :=
  ⟨i.val % d, by
    have h := i.isLt
    have hd : 0 < d := by
      rcases Nat.eq_zero_or_pos d with h0 | h0
      · subst h0; simp at h
      · exact h0
    exact Nat.mod_lt _ hd⟩

/-- Row-major flattening `reshape(-1)` of an `n × d` array. -/
def flatten {n d : ℕ} (M : Fin n → Fin d → ℝ) (i : Fin (n * d)) : ℝ :=
  M (rowIdx i) (colIdx i)

/-- Squared-exponential kernel `SE` (source lines 9-12):
`exp(-dot(diff, diff) / (2 l^2))` for `diff = x - y`. -/
noncomputable def SE {d : ℕ} (x y : Fin d → ℝ) (l : ℝ) : ℝ :=
  Real.exp (-(∑ i, (x i - y i) * (x i - y i)) / (2 * l ^ 2))

/-- First derivative `SE_dx` (source lines 14-15): `SE(x,y,l) * (y - x) / l^2`. -/
noncomputable def SE_dx {d : ℕ} (x y : Fin d → ℝ) (l : ℝ) : Fin d → ℝ :=
  fun i => SE x y l * (y i - x i) / l ^ 2

/-- Second derivative `SE_dx_dx` (source lines 17-19), elementwise:
`SE * (y-x)^2 / l^4 - SE / l^2`. -/
noncomputable def SE_dx_dx {d : ℕ} (x y : Fin d → ℝ) (l : ℝ) : Fin d → ℝ :=
  fun i => SE x y l * (y i - x i) ^ 2 / l ^ 4 - SE x y l / l ^ 2

/-- Cross Hessian `SE_dx_dy` (source lines 21-25):
`SE * I / l^2 - SE * (x-y)(x-y)^T / l^4`. -/
noncomputable def SE_dx_dy {d : ℕ} (x y : Fin d → ℝ) (l : ℝ) : Fin d → Fin d → ℝ :=
  fun i j =>
    (if i = j then SE x y l / l ^ 2 else 0)
      - SE x y l * ((x i - y i) * (x j - y j)) / l ^ 4

/-- Third mixed derivative `SE_dx_dx_dy` (source lines 27-32): three terms,
`term1[i,j] = SE (x_i-y_i)^2 (x_j-y_j) / l^6`, `term2 = 2 SE diag(x-y) / l^4`,
`term3[i,j] = SE (x_j-y_j) / l^4`; result `term1 - term2 - term3`. -/
noncomputable def SE_dx_dx_dy {d : ℕ} (x y : Fin d → ℝ) (l : ℝ) : Fin d → Fin d → ℝ :=
  fun i j =>
    SE x y l * ((x i - y i) ^ 2 * (x j - y j)) / l ^ 6
      - (if i = j then SE x y l * 2 * (x i - y i) / l ^ 4 else 0)
      - SE x y l * (x j - y j) / l ^ 4

/-- Fourth mixed derivative `SE_dx_dx_dy_dy` (source lines 34-42): five terms,
`term1[i,j] = SE ((x_i-y_i)(x_j-y_j))^2 / l^8`, `term2 = 6 SE diag((x-y)^2) / l^6`,
`term3[i,j] = SE (x_i-y_i)^2 / l^6` off-diagonal, `term4[i,j] = SE (x_j-y_j)^2 / l^6`
off-diagonal, `term5 = SE (1 + 2 I) / l^4`; result `term1 - term2 - term3 - term4 + term5`. -/
noncomputable def SE_dx_dx_dy_dy {d : ℕ} (x y : Fin d → ℝ) (l : ℝ) : Fin d → Fin d → ℝ :=
  fun i j =>
    SE x y l * ((x i - y i) * (x j - y j)) ^ 2 / l ^ 8
      - (if i = j then 6 * SE x y l * (x i - y i) ^ 2 / l ^ 6 else 0)
      - (if i = j then 0 else SE x y l * (x i - y i) ^ 2 / l ^ 6)
      - (if i = j then 0 else SE x y l * (x j - y j) ^ 2 / l ^ 6)
      + SE x y l * (1 + if i = j then 2 else 0) / l ^ 4

/-- Left-argument Hessian `SE_dx_i_dx_j` (source lines 45-52):
`SE * (y-x)(y-x)^T / l^4 - SE * I / l^2`. -/
noncomputable def SE_dx_i_dx_j {d : ℕ} (x y : Fin d → ℝ) (l : ℝ) : Fin d → Fin d → ℝ :=
  fun i j =>
    SE x y l * ((y i - x i) * (y j - x j)) / l ^ 4
      - (if i = j then SE x y l / l ^ 2 else 0)

/-- Left-argument third derivative `SE_dx_i_dx_i_dx_j` (source lines 55-66):
`term1[i,j] = SE (y_i-x_i)^2 (y_j-x_j) / l^6`, `term2[i,j] = SE (y_j-x_j) / l^4`,
`term3 = 2 * term2 * I`; result `term1 - term2 - term3`. -/
noncomputable def SE_dx_i_dx_i_dx_j {d : ℕ} (x y : Fin d → ℝ) (l : ℝ) : Fin d → Fin d → ℝ :=
  fun i j =>
    SE x y l * ((y i - x i) ^ 2 * (y j - x j)) / l ^ 6
      - SE x y l * (y j - x j) / l ^ 4
      - (if i = j then SE x y l * (y j - x j) / l ^ 4 * 2 else 0)

/-- Aggregated gradient statistic `compute_h` (source lines 68-75): an `n × d` array
where `h[b, :]` accumulates, over `a in range(n)`, the axis-0 sum (the sum of the rows)
of `kernel_dx_dx_dy(data[a], data[b])`, and the result is divided by `n`. -/
noncomputable def compute_h {n d : ℕ}
    (kernel_dx_dx_dy : (Fin d → ℝ) → (Fin d → ℝ) → Fin d → Fin d → ℝ)
    (data : Fin n → Fin d → ℝ) : Fin n → Fin d → ℝ :=
  fun b j =>
    ((List.finRange n).foldl
      (fun acc a => acc + ∑ i, kernel_dx_dx_dy (data a) (data b) i j) 0) / (n : ℝ)

/-- Lower-right block (source lines 78-79):
`dot(all_hessians, all_hessians)/N + lmbda * all_hessians`. -/
noncomputable def compute_lower_right_submatrix {m : ℕ}
    (all_hessians : Fin m → Fin m → ℝ) (N : ℕ) (lmbda : ℝ) : Fin m → Fin m → ℝ :=
  fun i j => (∑ k, all_hessians i k * all_hessians k j) / (N : ℝ) + lmbda * all_hessians i j

/-- First row block (source lines 81-82): `dot(h, all_hessians)/n + lmbda * h`. -/
noncomputable def compute_first_row {m : ℕ}
    (h : Fin m → ℝ) (all_hessians : Fin m → Fin m → ℝ) (n : ℕ) (lmbda : ℝ) : Fin m → ℝ :=
  fun j => (∑ i, h i * all_hessians i j) / (n : ℝ) + lmbda * h j

/-- Right-hand side `compute_RHS` (source lines 84-89): `b[0] = -xi_norm_2`,
`b[1:] = -h` for the flattened statistic `h`. -/
noncomputable def compute_RHS {m : ℕ} (h : Fin m → ℝ) (xi_norm_2 : ℝ) : Fin (m + 1) → ℝ :=
  fun p => Fin.cases (motive := fun _ => ℝ) (-xi_norm_2) (fun i => -(h i)) p

/-- Scalar statistic `compute_xi_norm_2` (source lines 91-100): accumulates, over all
ordered pairs `(a, b)`, the full entry sum of `kernel_dx_dx_dy_dy(data[a], data[b])`,
divided by `n^2`. -/
noncomputable def compute_xi_norm_2 {n d : ℕ}
    (kernel_dx_dx_dy_dy : (Fin d → ℝ) → (Fin d → ℝ) → Fin d → Fin d → ℝ)
    (data : Fin n → Fin d → ℝ) : ℝ :=
  ((List.finRange n).foldl
    (fun acc a =>
      (List.finRange n).foldl
        (fun acc2 b => acc2 + ∑ i, ∑ j, kernel_dx_dx_dy_dy (data a) (data b) i j) acc) 0)
    / (n : ℝ) ^ 2

/-- Modelled from the spec: the collaborator `gaussian_kernel_hessians` (module
`kernel_exp_family.kernels.kernels`, imported at source line 5) is not among the
sources here.  Spec section 6 gives its contract: an `(N*D) × (N*D)` block matrix
whose block `(a, b)` is `mixed_dx_dy(X[a], X[b], l)` (the cross Hessian `SE_dx_dy`)
with lengthscale `l = sqrt(sigma/2)` (spec section 3). -/
noncomputable def gaussian_kernel_hessians {n d : ℕ}
    (X : Fin n → Fin d → ℝ) (sigma : ℝ) : Fin (n * d) → Fin (n * d) → ℝ :=
  fun p q =>
    SE_dx_dy (X (rowIdx p)) (X (rowIdx q)) (Real.sqrt (sigma / 2)) (colIdx p) (colIdx q)

/-- Flattened aggregated gradient statistic of `build_system` (source lines 104, 108, 111):
`compute_h(SE_dx_dx_dy_l, X).reshape(-1)` with `l = sqrt(sigma / 2)`. -/
noncomputable def h_stat {n d : ℕ} (X : Fin n → Fin d → ℝ) (sigma : ℝ) : Fin (n * d) → ℝ :=
  flatten (compute_h (fun x y => SE_dx_dx_dy x y (Real.sqrt (sigma / 2))) X)

/-- Scalar statistic of `build_system` (source lines 104, 109, 113):
`compute_xi_norm_2(SE_dx_dx_dy_dy_l, X)` with `l = sqrt(sigma / 2)`. -/
noncomputable def xi_stat {n d : ℕ} (X : Fin n → Fin d → ℝ) (sigma : ℝ) : ℝ :=
  compute_xi_norm_2 (fun x y => SE_dx_dx_dy_dy x y (Real.sqrt (sigma / 2))) X

/-- System assembly `build_system` (source lines 103-124), with the pairwise Hessian
block matrix `all_hessians` (produced at source line 112 by the external collaborator
`gaussian_kernel_hessians`) passed as the supplied argument.  The returned matrix `A`
has `A[0,0] = dot(h,h)/n + lmbda*xi_norm_2` (line 116), `A[1:,1:]` the lower-right
submatrix (line 117), `A[0,1:]` the first row (line 119), and `A[1:,0]` an explicit
copy of `A[0,1:]` (line 120); `b` is `compute_RHS` (line 122). -/
noncomputable def build_system {n d : ℕ} (X : Fin n → Fin d → ℝ) (sigma lmbda : ℝ)
    (all_hessians : Fin (n * d) → Fin (n * d) → ℝ) :
    (Fin (n * d + 1) → Fin (n * d + 1) → ℝ) × (Fin (n * d + 1) → ℝ) :=
  (fun p q =>
    Fin.cases (motive := fun _ => ℝ)
      (Fin.cases (motive := fun _ => ℝ)
        ((∑ i, h_stat X sigma i * h_stat X sigma i) / (n : ℝ) + lmbda * xi_stat X sigma)
        (fun j => compute_first_row (h_stat X sigma) all_hessians n lmbda j) q)
      (fun i =>
        Fin.cases (motive := fun _ => ℝ)
          (compute_first_row (h_stat X sigma) all_hessians n lmbda i)
          (fun j => compute_lower_right_submatrix all_hessians n lmbda i j) q) p,
    compute_RHS (h_stat X sigma) (xi_stat X sigma))

/-- The full assembly as the source runs it, instantiating the Hessian collaborator
(source line 112). -/
noncomputable def build_system_full {n d : ℕ} (X : Fin n → Fin d → ℝ) (sigma lmbda : ℝ) :
    (Fin (n * d + 1) → Fin (n * d + 1) → ℝ) × (Fin (n * d + 1) → ℝ) :=
  build_system X sigma lmbda (gaussian_kernel_hessians X sigma)

/-- Python exceptions surfaced by the estimator core. -/
inductive PyErr where
  | shapeMismatch
  | singularSystem

/-- Modelled from the spec: `np.linalg.solve` (source line 129) is the external dense
solver.  Spec section 4.4: it returns the unique solution when `A` is nonsingular and
fails (`SingularSystemError`, numpy's `LinAlgError`) when `A` is singular. -/
noncomputable def np_linalg_solve (m : ℕ) (A : Fin m → Fin m → ℝ) (b : Fin m → ℝ) :
    Option (Fin m → ℝ) :=
  haveI := Classical.propDecidable (IsUnit (Matrix.of A).det)
  if IsUnit (Matrix.of A).det then some ((Matrix.of A)⁻¹.mulVec b) else none

/-- Dynamically shaped rank-2 numpy array: shape `(rows.length, cols)`. -/
structure NPMat where
  cols : ℕ
  rows : List (List ℝ)

/-- Numpy array of arbitrary rank: shape plus row-major flat data; used to model the
query argument whose rank is validated at run time. -/
structure NPArrN where
  shape : List ℕ
  data : List ℝ

/-- The `beta` coefficient array: rank 1 (`np.zeros(D*N)`) after construction,
rank 2 (`x[1:].reshape(n, d)`) after a successful fit. -/
inductive NPArr where
  | flat : List ℝ → NPArr
  | mat : List (List ℝ) → NPArr

/-- A numpy value that is either a Python/numpy scalar or a rank-1 array; the type of
an accumulator initialized as the int `0` and grown with `+=` of vectors. -/
inductive NPVal where
  | scalar : ℝ → NPVal
  | vec : List ℝ → NPVal

/-- Broadcasting addition of numpy values. -/
noncomputable def npAdd : NPVal → NPVal → NPVal
  | .scalar a, .scalar c => .scalar (a + c)
  | .scalar a, .vec v => .vec (v.map (fun t => a + t))
  | .vec v, .scalar a => .vec (v.map (fun t => t + a))
  | .vec v, .vec w => .vec (List.zipWith (fun s t => s + t) v w)

/-- Broadcasting multiplication of a scalar with a numpy value. -/
noncomputable def npScalarMul (a : ℝ) : NPVal → NPVal
  | .scalar c => .scalar (a * c)
  | .vec v => .vec (v.map (fun t => a * t))

/-- The `Fin`-indexed view of a rank-2 array's entries. -/
noncomputable def toMat (X : NPMat) : Fin X.rows.length → Fin X.cols → ℝ :=
  fun i j => (X.rows.getD i.val []).getD j.val 0

/-- Module-level `fit` (source lines 126-132): assemble the system, run the solver;
`alpha` is `x[0]` and `beta` is `x[1:].reshape(n, d)` (row-major).  Returns `none`
when the solver raises on a singular system. -/
noncomputable def fit (X : NPMat) (sigma lmbda : ℝ) : Option (ℝ × List (List ℝ)) :=
  (np_linalg_solve (X.rows.length * X.cols + 1)
      (build_system_full (toMat X) sigma lmbda).1
      (build_system_full (toMat X) sigma lmbda).2).map
    (fun x =>
      (x ⟨0, Nat.succ_pos _⟩,
        List.ofFn (fun i : Fin X.rows.length => List.ofFn (fun j : Fin X.cols =>
          x ⟨1 + (i.val * X.cols + j.val), by
            have hb : i.val * X.cols + j.val < X.rows.length * X.cols := by
              calc i.val * X.cols + j.val < i.val * X.cols + X.cols :=
                    Nat.add_lt_add_left j.isLt _
                _ = (i.val + 1) * X.cols := by ring
                _ ≤ X.rows.length * X.cols := Nat.mul_le_mul_right X.cols i.isLt
            omega⟩))))

/-- Entry `beta[a, i]` as used in the query loops (source lines 149, 167); indexing
with two subscripts requires a rank-2 `beta`.  The rank-1 case is only reachable on
an estimator that was never successfully fitted, where the sample matrix has zero
rows and the loops performing this access never run; it is given a default here. -/
noncomputable def betaEntry (beta : NPArr) (a i : ℕ) : ℝ :=
  match beta with
  | .mat r => (r.getD a []).getD i 0
  | .flat _ => 0

/-- Module-level `log_pdf` (source lines 134-151): validates that the query is a
rank-1 array of length `D = X.shape[1]` (the shape assertion collaborator, modelled
from spec section 6: validates array rank and selected-dimension sizes, raising on
mismatch), then returns `alpha * xi + betasum` with
`xi = sum_a sum(SE_dx_dx(x, x_a)) / N` and `betasum = sum_a dot(SE_dx(x, x_a), beta[a])`. -/
noncomputable def log_pdf (x : NPArrN) (X : NPMat) (sigma alpha : ℝ) (beta : NPArr) :
    Except PyErr ℝ :=
  if x.shape.length = 1 ∧ x.shape.getD 0 0 = X.cols then
    Except.ok
      (alpha *
        (List.finRange X.rows.length).foldl
          (fun acc a =>
            acc + (∑ i : Fin X.cols, SE_dx_dx (fun q => x.data.getD q.val 0)
              (fun q => (X.rows.getD a.val []).getD q.val 0)
              (Real.sqrt (sigma / 2)) i) / (X.rows.length : ℝ)) 0
      + (List.finRange X.rows.length).foldl
          (fun acc a =>
            acc + ∑ i : Fin X.cols, SE_dx (fun q => x.data.getD q.val 0)
              (fun q => (X.rows.getD a.val []).getD q.val 0)
              (Real.sqrt (sigma / 2)) i * betaEntry beta a.val i.val) 0)
  else Except.error PyErr.shapeMismatch

/-- Module-level `grad` (source lines 153-169): same shape validation; then
`xi_grad` accumulates `sum(SE_dx_i_dx_i_dx_j(x, x_a, l), axis=0) / N` and
`betasum_grad` accumulates `beta[a, :].dot(SE_dx_i_dx_j(x, x_a, l))`, both starting
from the Python int `0` (a scalar that broadcasts), and the result is
`alpha * xi_grad + betasum_grad`. -/
noncomputable def grad (x : NPArrN) (X : NPMat) (sigma alpha : ℝ) (beta : NPArr) :
    Except PyErr NPVal :=
  if x.shape.length = 1 ∧ x.shape.getD 0 0 = X.cols then
    Except.ok
      (npAdd
        (npScalarMul alpha
          ((List.finRange X.rows.length).foldl
            (fun acc a =>
              npAdd acc (NPVal.vec (List.ofFn (fun j : Fin X.cols =>
                (∑ i : Fin X.cols, SE_dx_i_dx_i_dx_j (fun q => x.data.getD q.val 0)
                  (fun q => (X.rows.getD a.val []).getD q.val 0)
                  (Real.sqrt (sigma / 2)) i j) / (X.rows.length : ℝ)))))
            (NPVal.scalar 0)))
        ((List.finRange X.rows.length).foldl
          (fun acc a =>
            npAdd acc (NPVal.vec (List.ofFn (fun j : Fin X.cols =>
              ∑ i : Fin X.cols, betaEntry beta a.val i.val *
                SE_dx_i_dx_j (fun q => x.data.getD q.val 0)
                  (fun q => (X.rows.getD a.val []).getD q.val 0)
                  (Real.sqrt (sigma / 2)) i j))))
          (NPVal.scalar 0)))
  else Except.error PyErr.shapeMismatch

/-- Estimator object state: the constructor arguments `sigma`, `lmbda`, `D`, `N`
(capacity) and the mutable fields `alpha`, `beta`, `X` (source lines 171-181). -/
structure EstState where
  sigma : ℝ
  lmbda : ℝ
  D : ℕ
  N : ℕ
  alpha : ℝ
  beta : NPArr
  X : NPMat

/-- Constructor body `KernelExpFullGaussian.__init__` (source lines 172-181): stores
the hyperparameters as given and initializes `alpha = 0`, `beta = np.zeros(D*N)`
(rank 1), `X = np.zeros((0, D))`. -/
noncomputable def KernelExpFullGaussian_mk (sigma lmbda : ℝ) (D N : ℕ) : EstState :=
  ⟨sigma, lmbda, D, N, 0, NPArr.flat (List.replicate (D * N) 0), ⟨D, []⟩⟩

/-- Error claimed by the spec (section 7) for invalid hyperparameters at construction. -/
inductive HPErr where
  | invalidHyperparameter

/-- Construction entry point.  The spec (section 7) claims construction raises
`InvalidHyperparameterError` on non-positive `sigma`, negative `lmbda`, or
non-positive `N`/`D`; the source constructor (lines 172-181) performs no validation
at all, so this always returns `Except.ok`. -/
noncomputable def KernelExpFullGaussian_init (sigma lmbda : ℝ) (D N : ℕ) :
    Except HPErr EstState :=
  Except.ok (KernelExpFullGaussian_mk sigma lmbda D N)

/-- Sub-sampling step of `KernelExpFullGaussian.fit` (source lines 186-191): when the
new data has more rows than the capacity `N`, keep the rows selected by the first `N`
entries of the random permutation (`np.random.permutation(len(X))[:self.N]`, modelled
by the `perm` argument); otherwise keep a copy of the full input. -/
noncomputable def subsampleX (s : EstState) (Xnew : NPMat) (perm : List ℕ) : NPMat :=
  if Xnew.rows.length > s.N then
    ⟨Xnew.cols, (perm.take s.N).map (fun i => Xnew.rows.getD i [])⟩
  else Xnew

/-- Method `KernelExpFullGaussian.fit` (source lines 183-197): validate the column
count, assign `self.X` to the (sub-sampled) input, then run `fit_wrapper_`, which
calls the module-level `fit` and assigns `self.alpha, self.beta` from its result.
The assignment to `self.X` happens before the solve, so when the solve raises the
returned state carries the new `X` with the old coefficients. -/
noncomputable def EstState.fit (s : EstState) (Xnew : NPMat) (perm : List ℕ) :
    EstState × Option PyErr :=
  if Xnew.cols = s.D then
    match KernelExpFamily.fit (subsampleX s Xnew perm) s.sigma s.lmbda with
    | some ab =>
        (⟨s.sigma, s.lmbda, s.D, s.N, ab.1, NPArr.mat ab.2, subsampleX s Xnew perm⟩, none)
    | none =>
        (⟨s.sigma, s.lmbda, s.D, s.N, s.alpha, s.beta, subsampleX s Xnew perm⟩,
          some PyErr.singularSystem)
  else (s, some PyErr.shapeMismatch)

/-- Method `KernelExpFullGaussian.log_pdf` (source lines 199-200). -/
noncomputable def EstState.log_pdf (s : EstState) (x : NPArrN) : Except PyErr ℝ :=
  KernelExpFamily.log_pdf x s.X s.sigma s.alpha s.beta

/-- Method `KernelExpFullGaussian.grad` (source lines 202-203). -/
noncomputable def EstState.grad (s : EstState) (x : NPArrN) : Except PyErr NPVal :=
  KernelExpFamily.grad x s.X s.sigma s.alpha s.beta

/-- Method `KernelExpFullGaussian.objective` (source lines 208-210): validate the
column count, then return `0.` unconditionally. -/
noncomputable def EstState.objective (s : EstState) (X : NPMat) : Except PyErr ℝ :=
  if X.cols = s.D then Except.ok 0 else Except.error PyErr.shapeMismatch

/-- Concrete sample matrix used in spot checks: a single zero sample in one dimension. -/
noncomputable def Xone : Fin 1 → Fin 1 → ℝ := fun _ _ => 0

/-- Concrete Hessian block matrix used in spot checks. -/
noncomputable def Hzero : Fin (1 * 1) → Fin (1 * 1) → ℝ := fun _ _ => 0

/-- Concrete estimator state used for the fit-failure analysis: as if constructed with
`sigma = 1`, `lmbda = 0`, `D = 1`, capacity `N = 1`, currently holding sample `[[0]]`. -/
noncomputable def c3_state : EstState := ⟨1, 0, 1, 1, 0, NPArr.flat [0], ⟨1, [[0]]⟩⟩

/-- Concrete fit input used for the fit-failure analysis: the single sample `[[1]]`. -/
noncomputable def c3_input : NPMat := ⟨1, [[1]]⟩

/-- Concrete estimator state used for the sub-sampling spot check. -/
noncomputable def c6_state : EstState := KernelExpFullGaussian_mk 1 0 1 1

/-- Concrete fit input used for the sub-sampling spot check: two rows, capacity one. -/
noncomputable def c6_input : NPMat := ⟨1, [[0], [1]]⟩

theorem foldl_add_sum {β : Type} (f : β → ℝ) (L : List β) (init : ℝ) :
    L.foldl (fun acc t => acc + f t) init = init + (L.map f).sum := by
  induction L generalizing init with
  | nil => simp
  | cons a t ih => simp [ih, add_assoc]

theorem foldl_finRange_sum {n : ℕ} (g : Fin n → ℝ) :
    (List.finRange n).foldl (fun acc a => acc + g a) 0 = ∑ a, g a := by
  rw [foldl_add_sum, zero_add]
  exact (Fin.sum_univ_def g).symm

theorem shape_spec (l : List ℕ) (c : ℕ) :
    (l.length = 1 ∧ l.getD 0 0 = c) ↔ l = [c] := by
  cases l with
  | nil => simp
  | cons a t =>
    cases t with
    | nil => simp [List.getD]
    | cons b t2 => simp

/-- C9: for every `n × d` sample matrix, `compute_h` (instantiated, as `build_system`
does, with the third mixed derivative `SE_dx_dx_dy` at lengthscale `l`) returns the
`n × d` matrix whose row `b` is the sum, over all sample indices `a`, of the sum of
the rows (`np.sum(..., axis=0)`) of `SE_dx_dx_dy(x_a, x_b, l)`, divided by `n`. -/
theorem compute_h_entries {n d : ℕ} (data : Fin n → Fin d → ℝ) (l : ℝ)
    (b : Fin n) (j : Fin d) :
    compute_h (fun x y => SE_dx_dx_dy x y l) data b j
      = (∑ a, ∑ i, SE_dx_dx_dy (data a) (data b) l i j) / (n : ℝ) := by
  unfold compute_h
  rw [foldl_finRange_sum]

/-- C1: for every sample matrix `X`, positive `sigma`, any `lmbda` and the supplied
pairwise Hessian block matrix, `build_system` returns `A` of size `(n*d+1) × (n*d+1)`
and `b` of length `n*d+1` (by their types) with, writing `h_stat` for the flattened
aggregated gradient statistic and `xi_stat` for the scalar statistic:
`A[0,0] = dot(h,h)/n + lmbda*xi`, `A[0,1:] = dot(h,H)/n + lmbda*h`,
`A[1:,1:] = dot(H,H)/n + lmbda*H`, `b[0] = -xi` and `b[1:] = -h`. -/
theorem build_system_blocks {n d : ℕ} (X : Fin n → Fin d → ℝ) (sigma lmbda : ℝ)
    (hs : 0 < sigma) (all_hessians : Fin (n * d) → Fin (n * d) → ℝ) :
    (build_system X sigma lmbda all_hessians).1 0 0
        = (∑ i, h_stat X sigma i * h_stat X sigma i) / (n : ℝ) + lmbda * xi_stat X sigma
    ∧ (∀ j : Fin (n * d), (build_system X sigma lmbda all_hessians).1 0 j.succ
        = (∑ i, h_stat X sigma i * all_hessians i j) / (n : ℝ) + lmbda * h_stat X sigma j)
    ∧ (∀ i j : Fin (n * d), (build_system X sigma lmbda all_hessians).1 i.succ j.succ
        = (∑ k, all_hessians i k * all_hessians k j) / (n : ℝ) + lmbda * all_hessians i j)
    ∧ (build_system X sigma lmbda all_hessians).2 0 = -(xi_stat X sigma)
    ∧ (∀ j : Fin (n * d), (build_system X sigma lmbda all_hessians).2 j.succ
        = -(h_stat X sigma j)) := by
  refine ⟨?_, fun j => ?_, fun i j => ?_, ?_, fun j => ?_⟩ <;>
    simp [build_system, compute_first_row, compute_lower_right_submatrix, compute_RHS,
      Fin.cases_zero, Fin.cases_succ]

/-- Spot check of C1 at a concrete instance. -/
theorem build_system_blocks_spot :
    (build_system Xone 1 0 Hzero).1 0 0
        = (∑ i, h_stat Xone 1 i * h_stat Xone 1 i) / ((1 : ℕ) : ℝ) + 0 * xi_stat Xone 1
    ∧ (build_system Xone 1 0 Hzero).2 0 = -(xi_stat Xone 1) :=
  ⟨(build_system_blocks Xone 1 0 one_pos Hzero).1,
   (build_system_blocks Xone 1 0 one_pos Hzero).2.2.2.1⟩

/-- C2: for every input `X`, `sigma`, `lmbda` and symmetric supplied Hessian block
matrix, the assembled matrix `A` is exactly symmetric, entry by entry: the off-diagonal
blocks agree because `A[1:,0]` is an explicit copy of `A[0,1:]` (source line 120), and
the lower-right block is symmetric because the Hessian block matrix is. -/
theorem build_system_symmetric {n d : ℕ} (X : Fin n → Fin d → ℝ) (sigma lmbda : ℝ)
    (all_hessians : Fin (n * d) → Fin (n * d) → ℝ)
    (hsym : ∀ i j, all_hessians i j = all_hessians j i) (p q : Fin (n * d + 1)) :
    (build_system X sigma lmbda all_hessians).1 p q
      = (build_system X sigma lmbda all_hessians).1 q p := by
  rcases Fin.eq_zero_or_eq_succ p with hp | ⟨i, hp⟩ <;>
    rcases Fin.eq_zero_or_eq_succ q with hq | ⟨j, hq⟩ <;> subst hp <;> subst hq
  · rfl
  · simp [build_system, Fin.cases_zero, Fin.cases_succ]
  · simp [build_system, Fin.cases_zero, Fin.cases_succ]
  · simp only [build_system, Fin.cases_succ, compute_lower_right_submatrix]
    have hsum : (∑ k, all_hessians i k * all_hessians k j)
        = ∑ k, all_hessians j k * all_hessians k i :=
      Finset.sum_congr rfl (fun k _ => by rw [hsym i k, hsym k j]; ring)
    rw [hsum, hsym i j]

/-- Spot check of C2 at a concrete instance. -/
theorem build_system_symmetric_spot :
    (build_system Xone 1 0 Hzero).1 0 1 = (build_system Xone 1 0 Hzero).1 1 0 :=
  build_system_symmetric Xone 1 0 Hzero (fun _ _ => rfl) 0 1

/-- C10: for every estimator state and every input matrix whose column count matches
the configured `D`, the `objective` method returns exactly `0.`, independently of the
fitted state and of the matrix entries. -/
theorem objective_zero (s : EstState) (X : NPMat) (hcols : X.cols = s.D) :
    s.objective X = Except.ok 0 := by
  unfold EstState.objective
  rw [if_pos hcols]

/-- Spot check of C10 at a concrete instance. -/
theorem objective_zero_spot :
    (KernelExpFullGaussian_mk 1 0 2 3).objective ⟨2, [[5, 6]]⟩ = Except.ok 0 :=
  objective_zero (KernelExpFullGaussian_mk 1 0 2 3) ⟨2, [[5, 6]]⟩ rfl

/-- C8: both query operations fail with the shape-mismatch error exactly when the
query is not a rank-1 array of length `D = X.shape[1]`; when the query is a length-`D`
vector the check passes. -/
theorem query_shape_check (x : NPArrN) (X : NPMat) (sigma alpha : ℝ) (beta : NPArr) :
    (KernelExpFamily.log_pdf x X sigma alpha beta = Except.error PyErr.shapeMismatch
        ↔ x.shape ≠ [X.cols])
    ∧ (KernelExpFamily.grad x X sigma alpha beta = Except.error PyErr.shapeMismatch
        ↔ x.shape ≠ [X.cols]) := by
  by_cases h : x.shape = [X.cols]
  · have hc : x.shape.length = 1 ∧ x.shape.getD 0 0 = X.cols := (shape_spec _ _).mpr h
    constructor
    · unfold KernelExpFamily.log_pdf
      rw [if_pos hc]
      simp [h]
    · unfold KernelExpFamily.grad
      rw [if_pos hc]
      simp [h]
  · have hc : ¬(x.shape.length = 1 ∧ x.shape.getD 0 0 = X.cols) :=
      fun hcc => h ((shape_spec _ _).mp hcc)
    constructor
    · unfold KernelExpFamily.log_pdf
      rw [if_neg hc]
      simp [h]
    · unfold KernelExpFamily.grad
      rw [if_neg hc]
      simp [h]

/-- C4 counterexample: constructing with non-positive `sigma = -1`, negative
`lmbda = -1` and non-positive `D = 0`, `N = 0` raises nothing: construction succeeds,
so no `InvalidHyperparameterError` is raised at construction time. -/
theorem init_no_validation :
    KernelExpFullGaussian_init (-1) (-1) 0 0
      = Except.ok (KernelExpFullGaussian_mk (-1) (-1) 0 0) := rfl

/-- C4 amended: the constructor performs no hyperparameter validation at all; for
every `sigma`, `lmbda`, `D`, `N` (valid or not) construction succeeds and simply
stores the values, initializing `alpha = 0`, a rank-1 all-zero `beta` of length
`D * N`, and an empty `(0, D)`-shaped sample matrix. -/
theorem init_always_ok (sigma lmbda : ℝ) (D N : ℕ) :
    KernelExpFullGaussian_init sigma lmbda D N
        = Except.ok (KernelExpFullGaussian_mk sigma lmbda D N)
    ∧ (KernelExpFullGaussian_mk sigma lmbda D N).sigma = sigma
    ∧ (KernelExpFullGaussian_mk sigma lmbda D N).lmbda = lmbda
    ∧ (KernelExpFullGaussian_mk sigma lmbda D N).alpha = 0
    ∧ (KernelExpFullGaussian_mk sigma lmbda D N).beta
        = NPArr.flat (List.replicate (D * N) 0)
    ∧ (KernelExpFullGaussian_mk sigma lmbda D N).X = ⟨D, []⟩ :=
  ⟨rfl, rfl, rfl, rfl, rfl, rfl⟩

/-- C5 amended: on a freshly constructed estimator (`alpha = 0`, all-zero `beta`,
zero-row sample matrix), a length-`D` query raises nothing: `log_pdf` returns the
scalar `0.0`, and `grad` returns the Python scalar `0` (the untouched accumulator,
which represents the zero function under numpy broadcasting) rather than a length-`D`
array. -/
theorem unfit_queries (sigma lmbda : ℝ) (D N : ℕ) (xdata : List ℝ) :
    (KernelExpFullGaussian_mk sigma lmbda D N).log_pdf ⟨[D], xdata⟩ = Except.ok 0
    ∧ (KernelExpFullGaussian_mk sigma lmbda D N).grad ⟨[D], xdata⟩
        = Except.ok (NPVal.scalar 0) := by
  constructor
  · simp [EstState.log_pdf, KernelExpFamily.log_pdf, KernelExpFullGaussian_mk,
      List.finRange_zero, List.getD_cons_zero]
  · simp [EstState.grad, KernelExpFamily.grad, KernelExpFullGaussian_mk,
      List.finRange_zero, List.getD_cons_zero, npScalarMul, npAdd]

/-- C5 counterexample: on a fresh estimator with `D = 1`, `grad` at the valid
length-1 query returns the scalar `0` (the loop over the zero-row sample matrix never
runs, so the int accumulator is returned as is), which is not the length-1 zero
vector: the claim that `grad` returns the length-`D` zero vector fails. -/
theorem unfit_grad_scalar :
    (KernelExpFullGaussian_mk 2 1 1 5).grad ⟨[1], [0]⟩ = Except.ok (NPVal.scalar 0)
    ∧ (Except.ok (NPVal.scalar 0) : Except PyErr NPVal) ≠ Except.ok (NPVal.vec [0]) := by
  constructor
  · simp [EstState.grad, KernelExpFamily.grad, KernelExpFullGaussian_mk,
      List.finRange_zero, List.getD_cons_zero, npScalarMul, npAdd]
  · intro hcontra
    simp at hcontra

theorem fit_X_eq (s : EstState) (Xnew : NPMat) (perm : List ℕ)
    (hcols : Xnew.cols = s.D) :
    (s.fit Xnew perm).1.X = subsampleX s Xnew perm := by
  unfold EstState.fit
  rw [if_pos hcols]
  cases h : KernelExpFamily.fit (subsampleX s Xnew perm) s.sigma s.lmbda with
  | none => rfl
  | some ab => rfl

/-- C6: when `fit` is called with more rows than the capacity `N` (and `perm` is the
permutation of the row indices drawn by `np.random.permutation`), the retained sample
matrix has exactly `N` rows, each a row of the original input, selected by `N`
distinct in-range row indices; with at most `N` rows the input is kept in full. -/
theorem fit_subsample (s : EstState) (Xnew : NPMat) (perm : List ℕ)
    (hperm : perm.Perm (List.range Xnew.rows.length)) (hcols : Xnew.cols = s.D) :
    (Xnew.rows.length > s.N →
      (s.fit Xnew perm).1.X.rows.length = s.N
      ∧ (∀ r ∈ (s.fit Xnew perm).1.X.rows, r ∈ Xnew.rows)
      ∧ ∃ inds : List ℕ, inds.Nodup ∧ inds.length = s.N
          ∧ (∀ i ∈ inds, i < Xnew.rows.length)
          ∧ (s.fit Xnew perm).1.X.rows = inds.map (fun i => Xnew.rows.getD i []))
    ∧ (Xnew.rows.length ≤ s.N → (s.fit Xnew perm).1.X = Xnew) := by
  have hX := fit_X_eq s Xnew perm hcols
  constructor
  · intro hgt
    rw [hX]
    unfold subsampleX
    rw [if_pos hgt]
    have hnodup : (perm.take s.N).Nodup :=
      List.Nodup.sublist (List.take_sublist _ _)
        ((List.Perm.nodup_iff hperm).mpr (List.nodup_range _))
    have hmem : ∀ i ∈ perm.take s.N, i < Xnew.rows.length := by
      intro i hi
      have h1 : i ∈ perm := List.take_subset _ _ hi
      exact List.mem_range.mp (hperm.mem_iff.mp h1)
    have hlen : (perm.take s.N).length = s.N := by
      rw [List.length_take]
      have h2 : perm.length = Xnew.rows.length := by
        rw [hperm.length_eq, List.length_range]
      rw [h2]
      exact Nat.min_eq_left (Nat.le_of_lt hgt)
    refine ⟨?_, ?_, perm.take s.N, hnodup, hlen, hmem, rfl⟩
    · show ((perm.take s.N).map (fun i => Xnew.rows.getD i [])).length = s.N
      rw [List.length_map]
      exact hlen
    · intro r hr
      rcases List.mem_map.mp hr with ⟨i, hi, rfl⟩
      have hlt := hmem i hi
      rw [List.getD_eq_getElem _ _ hlt]
      exact List.getElem_mem _
  · intro hle
    rw [hX]
    unfold subsampleX
    rw [if_neg (not_lt.mpr hle)]

/-- Spot check of C6 at a concrete instance: two input rows, capacity one. -/
theorem fit_subsample_spot :
    (c6_state.fit c6_input [1, 0]).1.X.rows.length = c6_state.N :=
  ((fit_subsample c6_state c6_input [1, 0] (by decide) rfl).1 (by decide)).1

theorem fit_le_some (s : EstState) (Xnew : NPMat) (perm : List ℕ)
    (ab : ℝ × List (List ℝ)) (hle : Xnew.rows.length ≤ s.N) (hcols : Xnew.cols = s.D)
    (h : KernelExpFamily.fit Xnew s.sigma s.lmbda = some ab) :
    s.fit Xnew perm = (⟨s.sigma, s.lmbda, s.D, s.N, ab.1, NPArr.mat ab.2, Xnew⟩, none) := by
  have hsub : subsampleX s Xnew perm = Xnew := by
    unfold subsampleX
    rw [if_neg (not_lt.mpr hle)]
  unfold EstState.fit
  rw [if_pos hcols, hsub, h]

theorem fit_le_none (s : EstState) (Xnew : NPMat) (perm : List ℕ)
    (hle : Xnew.rows.length ≤ s.N) (hcols : Xnew.cols = s.D)
    (h : KernelExpFamily.fit Xnew s.sigma s.lmbda = none) :
    s.fit Xnew perm
      = (⟨s.sigma, s.lmbda, s.D, s.N, s.alpha, s.beta, Xnew⟩, some PyErr.singularSystem) := by
  have hsub : subsampleX s Xnew perm = Xnew := by
    unfold subsampleX
    rw [if_neg (not_lt.mpr hle)]
  unfold EstState.fit
  rw [if_pos hcols, hsub, h]

/-- C7: calling `fit` twice with the identical sample matrix, when no sub-sampling is
triggered (row count at most the capacity `N`), yields identical `alpha` and `beta`
after each call, whatever random permutation streams the two calls draw: in that
regime the computation is deterministic and the randomness is never consulted. -/
theorem fit_deterministic (s : EstState) (Xnew : NPMat) (p1 p2 : List ℕ)
    (hle : Xnew.rows.length ≤ s.N) :
    ((s.fit Xnew p1).1.fit Xnew p2).1.alpha = (s.fit Xnew p1).1.alpha
    ∧ ((s.fit Xnew p1).1.fit Xnew p2).1.beta = (s.fit Xnew p1).1.beta := by
  by_cases hcols : Xnew.cols = s.D
  · cases h : KernelExpFamily.fit Xnew s.sigma s.lmbda with
    | some ab =>
      have h1 := fit_le_some s Xnew p1 ab hle hcols h
      have h2 := fit_le_some ⟨s.sigma, s.lmbda, s.D, s.N, ab.1, NPArr.mat ab.2, Xnew⟩
        Xnew p2 ab hle hcols h
      rw [h1]
      dsimp only
      rw [h2]
      exact ⟨rfl, rfl⟩
    | none =>
      have h1 := fit_le_none s Xnew p1 hle hcols h
      have h2 := fit_le_none ⟨s.sigma, s.lmbda, s.D, s.N, s.alpha, s.beta, Xnew⟩
        Xnew p2 hle hcols h
      rw [h1]
      dsimp only
      rw [h2]
      exact ⟨rfl, rfl⟩
  · have h1 : s.fit Xnew p1 = (s, some PyErr.shapeMismatch) := by
      unfold EstState.fit
      rw [if_neg hcols]
    have h2 : s.fit Xnew p2 = (s, some PyErr.shapeMismatch) := by
      unfold EstState.fit
      rw [if_neg hcols]
    rw [h1]
    dsimp only
    rw [h2]
    exact ⟨rfl, rfl⟩

/-- Spot check of C7 at a concrete instance. -/
theorem fit_deterministic_spot :
    (((KernelExpFullGaussian_mk 2 1 1 3).fit ⟨1, [[0]]⟩ []).1.fit ⟨1, [[0]]⟩ [0]).1.alpha
      = ((KernelExpFullGaussian_mk 2 1 1 3).fit ⟨1, [[0]]⟩ []).1.alpha :=
  (fit_deterministic (KernelExpFullGaussian_mk 2 1 1 3) ⟨1, [[0]]⟩ [] [0] (by decide)).1

theorem SE_dx_dx_dy_self {d : ℕ} (x : Fin d → ℝ) (l : ℝ) (i j : Fin d) :
    SE_dx_dx_dy x x l i j = 0 := by
  simp [SE_dx_dx_dy, sub_self]

theorem h_stat_one (v : Fin 1 → Fin 1 → ℝ) (sigma : ℝ) (i : Fin (1 * 1)) :
    h_stat v sigma i = 0 := by
  obtain ⟨c, hc⟩ : ∃ c, v = fun _ _ => c :=
    ⟨v 0 0, by
      funext a b
      rw [Subsingleton.elim a 0, Subsingleton.elim b 0]⟩
  subst hc
  simp [h_stat, flatten, compute_h, List.finRange_succ_eq_map, List.finRange_zero,
    SE_dx_dx_dy_self]

theorem c3_A_row_zero (q : Fin (c3_input.rows.length * c3_input.cols + 1)) :
    Matrix.of (build_system_full (toMat c3_input) c3_state.sigma c3_state.lmbda).1 0 q
      = 0 := by
  have hh : ∀ i : Fin (c3_input.rows.length * c3_input.cols),
      h_stat (toMat c3_input) c3_state.sigma i = 0 :=
    fun i => h_stat_one (toMat c3_input) c3_state.sigma i
  have hl : c3_state.lmbda = 0 := rfl
  rw [Matrix.of_apply]
  rcases Fin.eq_zero_or_eq_succ q with hq | ⟨j, hq⟩ <;> subst hq
  · unfold build_system_full build_system
    simp [hh, hl]
  · unfold build_system_full build_system
    simp [compute_first_row, hh, hl]

theorem c3_solve_none :
    np_linalg_solve (c3_input.rows.length * c3_input.cols + 1)
      (build_system_full (toMat c3_input) c3_state.sigma c3_state.lmbda).1
      (build_system_full (toMat c3_input) c3_state.sigma c3_state.lmbda).2 = none := by
  have hdet :
      (Matrix.of (build_system_full (toMat c3_input) c3_state.sigma c3_state.lmbda).1).det
        = 0 :=
    Matrix.det_eq_zero_of_row_eq_zero 0 (fun j => c3_A_row_zero j)
  unfold np_linalg_solve
  rw [if_neg (show
    ¬IsUnit (Matrix.of
        (build_system_full (toMat c3_input) c3_state.sigma c3_state.lmbda).1).det by
      rw [hdet]
      exact not_isUnit_zero)]

theorem c3_fit_none :
    KernelExpFamily.fit c3_input c3_state.sigma c3_state.lmbda = none := by
  unfold KernelExpFamily.fit
  rw [c3_solve_none]
  rfl

theorem c3_subsample_id : subsampleX c3_state c3_input [0] = c3_input := by
  unfold subsampleX
  rw [if_neg (show ¬c3_input.rows.length > c3_state.N by decide)]

theorem c3_fit_eval :
    c3_state.fit c3_input [0]
      = (⟨c3_state.sigma, c3_state.lmbda, c3_state.D, c3_state.N, c3_state.alpha,
          c3_state.beta, c3_input⟩, some PyErr.singularSystem) := by
  unfold EstState.fit
  rw [if_pos (show c3_input.cols = c3_state.D from rfl), c3_subsample_id, c3_fit_none]

/-- C3 counterexample: fitting the sample `[[1]]` on an estimator currently holding
`[[0]]` (with `lmbda = 0`) fails in the linear solve — the assembled system matrix has
an all-zero first row, hence zero determinant — yet after the failed call the
estimator's `X` is the new input, not the prior sample matrix: the estimator does not
retain its prior `X` when `fit` fails. -/
theorem fit_failure_mutates_X :
    (c3_state.fit c3_input [0]).2 = some PyErr.singularSystem
    ∧ (c3_state.fit c3_input [0]).1.X = c3_input
    ∧ c3_state.X ≠ c3_input := by
  refine ⟨?_, ?_, ?_⟩
  · rw [c3_fit_eval]
  · rw [c3_fit_eval]
  · intro hcontra
    simp [c3_state, c3_input] at hcontra

/-- C3 amended: when `fit` fails in the linear solve, `alpha` and `beta` do retain
their prior values (they are assigned together only after the solve returns), but `X`
does not: it has already been replaced by the new (sub-sampled) input before the solve
runs, so the state replacement is not atomic across `X` and the coefficients. -/
theorem fit_failure_keeps_coeffs (s : EstState) (Xnew : NPMat) (perm : List ℕ)
    (herr : (s.fit Xnew perm).2 = some PyErr.singularSystem) :
    (s.fit Xnew perm).1.alpha = s.alpha
    ∧ (s.fit Xnew perm).1.beta = s.beta
    ∧ (s.fit Xnew perm).1.X = subsampleX s Xnew perm := by
  by_cases hcols : Xnew.cols = s.D
  · unfold EstState.fit at herr ⊢
    rw [if_pos hcols] at herr ⊢
    cases h : KernelExpFamily.fit (subsampleX s Xnew perm) s.sigma s.lmbda with
    | some ab =>
      rw [h] at herr
      simp at herr
    | none =>
      exact ⟨rfl, rfl, rfl⟩
  · unfold EstState.fit at herr
    rw [if_neg hcols] at herr
    simp at herr

/-- Spot check of the amended C3 at the concrete failing fit. -/
theorem fit_failure_keeps_coeffs_spot :
    (c3_state.fit c3_input [0]).1.alpha = c3_state.alpha
    ∧ (c3_state.fit c3_input [0]).1.beta = c3_state.beta
    ∧ (c3_state.fit c3_input [0]).1.X = subsampleX c3_state c3_input [0] :=
  fit_failure_keeps_coeffs c3_state c3_input [0] (by rw [c3_fit_eval])

end KernelExpFamily
